import Mathlib

/-!
Verification development for the aws-utils repository.

The repository contains two Python command-line tools:

* `dynamo_features_rw_report.py` — queries consumed read/write capacity
  units per table, converts them to GB, groups tables by environment
  prefix, and prints per-table rows, per-environment subtotals and a
  grand total.
* `dynamodb_features_write_metrics.py` — queries consumed write capacity
  units per table together with table size and item count, derives
  average/peak WCU-per-second and rows-per-second, and prints a table
  sorted by peak rows/sec with a TOTAL line and explanatory notes.

Python floats are modelled as rationals (`ℚ`): every arithmetic identity
proved here is about the real-number content of the computations; the
grouping/ordering/text results are exact.  Process results (`subprocess.run`)
are modelled by the `Proc` structure, whose `stdout` field carries the
JSON payload already parsed (`none` when `json.loads` would raise).
-/

/-- Result of `subprocess.run(cmd, capture_output=True, text=True)`:
exit status, stdout (as the parsed JSON payload; `none` when the text
does not parse), and stderr. -/
structure Proc (α : Type) where
  returncode : ℤ
  stdout : Option α
  stderr : String
  deriving Repr

namespace RwReport

/-- Python `table.startswith(p)`: code-point prefix test on strings. -/
def startswith (table p : String) : Bool :=
  p.data.isPrefixOf table.data

/-- The per-table record built in `main` (lines 116–121 of
`dynamo_features_rw_report.py`): raw consumed units and derived GB. -/
@[ext]
structure Metrics where
  read_cu : ℚ
  write_cu : ℚ
  read_gb : ℚ
  write_gb : ℚ
  deriving DecidableEq, Repr

/-- Lines 116–121: `read_gb = read_cu * 4.0 / (1024 * 1024)`,
`write_gb = write_cu * 1.0 / (1024 * 1024)` (1 WCU = 1 KB, 1 RCU = 4 KB). -/
def mkMetrics (read_cu write_cu : ℚ) : Metrics :=
  ⟨read_cu, write_cu, read_cu * 4 / (1024 * 1024), write_cu * 1 / (1024 * 1024)⟩

/-- Bytes read: 1 RCU = 4 KB = 4096 bytes (comment at line 115 and the
footnote at lines 196–197). -/
def readBytes (read_cu : ℚ) : ℚ := read_cu * 4096

/-- Bytes written: 1 WCU = 1 KB = 1024 bytes (comment at line 115 and the
footnote at line 196). -/
def writeBytes (write_cu : ℚ) : ℚ := write_cu * 1024

/-- Line 165 / 179 / 188: `total_gb = read_gb + write_gb`. -/
def total_gb (m : Metrics) : ℚ := m.read_gb + m.write_gb

/-- Line 141: `env = next((e for e in envs if table.startswith(f"{e}.")), "other")`. -/
def classify (envs : List String) (table : String) : String :=
  ((envs.find? fun e => startswith table (e ++ ".")).getD "other")

/-- Field-wise addition used by `env_totals[k] += m[k]` (lines 167–168)
and `grand[k] += env_totals[k]` (lines 185–186). -/
def Metrics.add (a b : Metrics) : Metrics :=
  ⟨a.read_cu + b.read_cu, a.write_cu + b.write_cu,
   a.read_gb + b.read_gb, a.write_gb + b.write_gb⟩

/-- The all-zero accumulator `{"read_cu": 0, "write_cu": 0, "read_gb": 0, "write_gb": 0}`
(lines 144 and 160). -/
def zeroTotals : Metrics := ⟨0, 0, 0, 0⟩

/-- The bucket `groups[g]` built at lines 140–142: the tables whose
classification is `g`, in insertion (discovery) order. -/
def tablesIn (envs : List String) (results : List (String × Metrics)) (g : String) :
    List (String × Metrics) :=
  results.filter fun r => classify envs r.1 == g

/-- Line 162: `for table in sorted(env_tables)` — the bucket's rows in
lexicographic order of the full table name (Python's stable sort; names
are dict keys, hence distinct, so any sorted arrangement is this one). -/
def sortedTablesIn (envs : List String) (results : List (String × Metrics))
    (g : String) : List (String × Metrics) :=
  List.insertionSort (fun a b => a.1 ≤ b.1) (tablesIn envs results g)

/-- Line 147: `group_order = [e for e in (*envs, "other") if e in groups]`. -/
def groupOrder (envs : List String) (results : List (String × Metrics)) : List String :=
  (envs ++ ["other"]).filter fun e => results.any fun r => classify envs r.1 == e

/-- Lines 160–168: the subtotal accumulated over a bucket's rows in their
emitted (sorted) order. -/
def subtotal (rows : List (String × Metrics)) : Metrics :=
  rows.foldl (fun acc r => acc.add r.2) zeroTotals

/-- Lines 144–186: the grand total, accumulated by adding each group's
subtotal once per occurrence of the group in `group_order`. -/
def grand (envs : List String) (results : List (String × Metrics)) : Metrics :=
  (groupOrder envs results).foldl
    (fun acc g => acc.add (subtotal (sortedTablesIn envs results g))) zeroTotals

/-- Python `f"{s:>w}"`: right-justify in width `w` with spaces. -/
def rjust (s : String) (w : Nat) : String :=
  String.mk (List.replicate (w - s.length) ' ') ++ s

/-- Python `f"{s:<w}"`: left-justify in width `w` with spaces. -/
def ljust (s : String) (w : Nat) : String :=
  s ++ String.mk (List.replicate (w - s.length) ' ')

/-- Lines 170–171: a consumed-units cell; `numfmt` stands for Python's
`"{:,.0f}"` rendering of a nonzero float, which the claims never evaluate. -/
def fmt_cu (numfmt : ℚ → String) (v : ℚ) : String :=
  if v ≠ 0 then rjust (numfmt v) 14 else rjust "0" 14

/-- Lines 172–174: a GB cell; `numfmt4` stands for Python's `"{:.4f}"`
rendering of a nonzero float. -/
def fmt_gb (numfmt4 : ℚ → String) (v : ℚ) : String :=
  if v ≠ 0 then rjust (numfmt4 v) 10 else rjust "0.0000" 10

/-- Line 176: one rendered table row (`col_table = 62`). -/
def rowLine (numfmt numfmt4 : ℚ → String) (short : String) (m : Metrics) : String :=
  "  " ++ ljust short 62 ++ " " ++ fmt_cu numfmt m.read_cu ++ " "
    ++ fmt_gb numfmt4 m.read_gb ++ " " ++ fmt_cu numfmt m.write_cu ++ " "
    ++ fmt_gb numfmt4 m.write_gb ++ " " ++ fmt_gb numfmt4 (total_gb m)

/-- Lines 34–39, `run_aws`: a nonzero exit status prints
`ERROR: cmd\nstderr` to stderr and calls `sys.exit(1)`; otherwise
`json.loads(result.stdout)` is returned, an unparseable stdout raising
`JSONDecodeError` (uncaught, so the interpreter exits with status 1 and a
traceback on stderr). -/
def run_aws {α : Type} (cmd : String) (r : Proc α) : Except (Nat × String) α :=
  if r.returncode ≠ 0 then
    Except.error (1, "ERROR: " ++ cmd ++ "\n" ++ r.stderr)
  else
    match r.stdout with
    | some v => Except.ok v
    | none => Except.error (1, "json.decoder.JSONDecodeError")

/-- The fetch loop of `main`: every AWS call goes through `run_aws`
(lines 107–113 via `get_metric`, line 43 via `get_matching_tables`),
sequentially, stopping at the first failure; the report is only rendered
from the complete list of successful results. -/
def runFetches {α : Type} : List (String × Proc α) → Except (Nat × String) (List α)
  | [] => Except.ok []
  | f :: fs =>
    match run_aws f.1 f.2 with
    | Except.error e => Except.error e
    | Except.ok v =>
      match runFetches fs with
      | Except.error e => Except.error e
      | Except.ok vs => Except.ok (v :: vs)

end RwReport

namespace WriteMetrics

/-- Line 48 of `dynamodb_features_write_metrics.py`:
`avg_item_bytes = size_bytes / item_count if item_count > 0 else 0`. -/
def avg_item_bytes (size_bytes item_count : ℤ) : ℚ :=
  if 0 < item_count then (size_bytes : ℚ) / (item_count : ℚ) else 0

/-- Lines 67–71: `(sum(dp["Sum"] for dp in datapoints) / len(datapoints)) / 3600`
when there are datapoints, else 0. -/
def avg_wcu_per_sec (datapoints : List ℚ) : ℚ :=
  if datapoints.isEmpty then 0 else (datapoints.sum / (datapoints.length : ℚ)) / 3600

/-- Python `max(...)` over a nonempty sequence (the `[]` case is never
reached behind the `if datapoints:` guard). -/
def listMax : List ℚ → ℚ
  | [] => 0
  | x :: xs => xs.foldl max x

/-- Lines 67–72: `max(dp["Sum"] for dp in datapoints) / 3600` when there
are datapoints, else 0. -/
def peak_wcu_per_sec (datapoints : List ℚ) : ℚ :=
  if datapoints.isEmpty then 0 else listMax datapoints / 3600

/-- Line 77: `max(1, math.ceil(avg_item_bytes / 1024)) if avg_item_bytes > 0 else 1`. -/
def wcu_per_item (avg_item_bytes : ℚ) : ℤ :=
  if 0 < avg_item_bytes then max 1 ⌈avg_item_bytes / 1024⌉ else 1

/-- Lines 79–80: `rate / wcu_per_item if wcu_per_item else 0`. -/
def rows_per_sec (rate : ℚ) (w : ℤ) : ℚ :=
  if w ≠ 0 then rate / (w : ℚ) else 0

/-- One entry of `table_data` (lines 82–92). -/
structure TableRow where
  table : String
  size_bytes : ℤ
  item_count : ℤ
  avg_item_bytes : ℚ
  wcu_per_item : ℤ
  avg_wcu_per_sec : ℚ
  peak_wcu_per_sec : ℚ
  avg_write_rows_per_sec : ℚ
  peak_write_rows_per_sec : ℚ
  deriving Repr

/-- The body of the per-table loop (lines 38–92): derive every field of a
`table_data` entry from the describe-table payload and the CloudWatch
datapoints. -/
def computeRow (table : String) (size_bytes item_count : ℤ)
    (datapoints : List ℚ) : TableRow :=
  let aib := avg_item_bytes size_bytes item_count
  let w := wcu_per_item aib
  let a := avg_wcu_per_sec datapoints
  let p := peak_wcu_per_sec datapoints
  ⟨table, size_bytes, item_count, aib, w, a, p, rows_per_sec a w, rows_per_sec p w⟩

/-- Line 95: `table_data.sort(key=lambda t: t["peak_write_rows_per_sec"], reverse=True)`
— a stable sort, descending on the peak rate.  Python's stable sort and a
stable insertion sort with the same total relation produce the same list. -/
def sortByPeakDesc (table_data : List TableRow) : List TableRow :=
  List.insertionSort
    (fun a b => b.peak_write_rows_per_sec ≤ a.peak_write_rows_per_sec) table_data

/-- Lines 108, 125: `total_avg_rows` accumulated over the printed rows in
their printed order. -/
def total_avg_rows (table_data : List TableRow) : ℚ :=
  table_data.foldl (fun acc t => acc + t.avg_write_rows_per_sec) 0

/-- Lines 109, 126: `total_peak_rows` accumulated over the printed rows in
their printed order. -/
def total_peak_rows (table_data : List TableRow) : ℚ :=
  table_data.foldl (fun acc t => acc + t.peak_write_rows_per_sec) 0

/-- An ASCII apostrophe, kept out of string literals. -/
def apos : String := String.singleton (Char.ofNat 39)

/-- Line 137 of the NOTES block. -/
def caveatPeakLine : String :=
  "  - " ++ apos ++ "Peak Rows/s" ++ apos ++ " is per-table peak; tables don"
    ++ apos ++ "t necessarily peak simultaneously"

/-- Line 138 of the NOTES block. -/
def caveatTotalLine : String :=
  "  - TOTAL Peak is a worst-case sum assuming all tables peak at the same time"

/-- Lines 133–138: the NOTES block, printed unconditionally after the
TOTAL line. -/
def notesLines : List String :=
  ["", "", "NOTES:",
   "  - WCU per Item = ceil(avg_item_bytes / 1024)  [DynamoDB: 1 WCU = 1 write up to 1 KB]",
   "  - Avg/Peak WCU/s from CloudWatch ConsumedWriteCapacityUnits (1-hr periods, 30 days)",
   "  - Rows/s = WCU_per_sec / WCU_per_item",
   caveatPeakLine,
   caveatTotalLine]

/-- Lines 102–138, as a list of printed lines: the data rows in
peak-descending order, the TOTAL line, then the NOTES block.  The
numeric column formatting of rows and TOTAL line is abstracted by the
`renderRow` / `renderTotal` parameters (the claims checked here never
evaluate those cells). -/
def outputLines (renderRow : TableRow → String)
    (renderTotal : List TableRow → String) (table_data : List TableRow) :
    List String :=
  "WRITE THROUGHPUT: WCU -> Rows/sec Translation"
    :: ((sortByPeakDesc table_data).map renderRow
      ++ [renderTotal (sortByPeakDesc table_data)] ++ notesLines)

/-- Lines 40–45 / 51–64: `subprocess.run` followed directly by
`json.loads(result.stdout)` — the exit status is never inspected; an
unparseable stdout raises `JSONDecodeError` (uncaught, so the interpreter
exits with status 1 and a traceback on stderr). -/
def fetch_unchecked {α : Type} (r : Proc α) : Except String α :=
  match r.stdout with
  | some v => Except.ok v
  | none => Except.error "json.decoder.JSONDecodeError: Expecting value"

end WriteMetrics

open RwReport WriteMetrics

/-! ## Helper lemmas -/

/-- Folding `Metrics.add` distributes over any additive projection. -/
theorem foldl_add_f {β : Type} (f : Metrics → ℚ) (g : β → Metrics)
    (hf : ∀ a b : Metrics, f (a.add b) = f a + f b) :
    ∀ (l : List β) (init : Metrics),
      f (l.foldl (fun acc x => acc.add (g x)) init)
        = f init + (l.map fun x => f (g x)).sum
  | [], init => by simp
  | x :: xs, init => by
    rw [List.foldl_cons, foldl_add_f f g hf xs (init.add (g x)), hf,
      List.map_cons, List.sum_cons]
    ring

/-- Splitting a mapped sum along a Boolean filter. -/
theorem sum_map_filter_add {β : Type} (p : β → Bool) (h : β → ℚ) :
    ∀ l : List β,
      ((l.filter p).map h).sum + ((l.filter fun x => ! p x).map h).sum
        = (l.map h).sum
  | [] => by simp
  | x :: xs => by
    have ih := sum_map_filter_add p h xs
    by_cases hx : p x <;>
      simp only [List.filter_cons, hx, Bool.not_true, Bool.not_false, if_pos,
        if_neg, ite_true, ite_false, Bool.false_eq_true, not_false_iff,
        List.map_cons, List.sum_cons] <;>
      rw [← ih] <;> ring

/-- Summing fiber-wise over a duplicate-free list of keys that covers the
list recovers the total sum. -/
theorem sum_fibers {β : Type} (key : β → String) (h : β → ℚ) :
    ∀ (ks : List String) (l : List β), ks.Nodup → (∀ x ∈ l, key x ∈ ks) →
      (ks.map fun k => ((l.filter fun x => key x == k).map h).sum).sum
        = (l.map h).sum
  | [], l, _, hcov => by
    have hl : l = [] := List.eq_nil_iff_forall_not_mem.mpr fun x hx => by
      simpa using hcov x hx
    simp [hl]
  | k :: ks, l, hnd, hcov => by
    have hk : k ∉ ks := (List.nodup_cons.mp hnd).1
    have hnd' : ks.Nodup := (List.nodup_cons.mp hnd).2
    have hcov' : ∀ x ∈ l.filter fun x => ! (key x == k), key x ∈ ks := by
      intro x hx
      have hx1 : x ∈ l := List.mem_of_mem_filter hx
      have hx2 : ¬ (key x == k) = true := by
        have := List.of_mem_filter hx
        simpa using this
      rcases List.mem_cons.mp (hcov x hx1) with h1 | h1
      · exact absurd (beq_iff_eq.mpr h1) hx2
      · exact h1
    have hfib : ∀ j ∈ ks,
        ((l.filter fun x => key x == j).map h).sum
          = (((l.filter fun x => ! (key x == k)).filter
              fun x => key x == j).map h).sum := by
      intro j hj
      have hjk : j ≠ k := fun e => hk (e ▸ hj)
      have hfilt : (l.filter fun x => key x == j)
          = (l.filter fun x => ! (key x == k)).filter fun x => key x == j := by
        rw [List.filter_filter]
        apply List.filter_congr
        intro x _
        cases hxj : (key x == j) with
        | false => simp
        | true =>
          have hx : key x = j := beq_iff_eq.mp hxj
          simp [hx, hjk]
      rw [hfilt]
    rw [List.map_cons, List.sum_cons]
    have hmap : (ks.map fun j => ((l.filter fun x => key x == j).map h).sum)
        = ks.map fun j => (((l.filter fun x => ! (key x == k)).filter
            fun x => key x == j).map h).sum :=
      List.map_congr_left hfib
    rw [hmap,
      sum_fibers key h ks (l.filter fun x => ! (key x == k)) hnd' hcov',
      ← sum_map_filter_add (fun x => key x == k) h l]

/-- Keys whose summand vanishes can be dropped from a filtered key list. -/
theorem sum_over_filter (q : String → Bool) (F : String → ℚ) :
    ∀ ks : List String, (∀ k ∈ ks, q k = false → F k = 0) →
      ((ks.filter q).map F).sum = (ks.map F).sum
  | [], _ => by simp
  | k :: ks, h0 => by
    have ih := sum_over_filter q F ks fun j hj => h0 j (List.mem_cons_of_mem k hj)
    cases hq : q k <;>
      simp [List.filter_cons, hq, ih, h0 k (List.mem_cons_self k ks) ]

/-- The classification always lands in the configured tags or the fallback. -/
theorem classify_mem (envs : List String) (t : String) :
    classify envs t ∈ envs ++ ["other"] := by
  unfold classify
  cases h : envs.find? fun e => startswith t (e ++ ".") with
  | none => simp [h]
  | some e =>
    simp only [h, Option.getD_some, List.mem_append]
    exact Or.inl (List.mem_of_find?_eq_some h)

/-- Any additive projection of a bucket subtotal is the sum of that
projection over the bucket, in any order. -/
theorem subtotal_f (f : Metrics → ℚ) (hf : ∀ a b : Metrics, f (a.add b) = f a + f b)
    (hf0 : f zeroTotals = 0) (envs : List String)
    (results : List (String × Metrics)) (g : String) :
    f (subtotal (sortedTablesIn envs results g))
      = ((tablesIn envs results g).map fun r => f r.2).sum := by
  unfold subtotal sortedTablesIn
  rw [foldl_add_f f Prod.snd hf _ zeroTotals, hf0, zero_add]
  exact ((List.perm_insertionSort (fun a b => a.1 ≤ b.1)
    (tablesIn envs results g)).map fun r => f r.2).sum_eq

/-- With duplicate-free environment tags not containing the fallback tag,
any additive projection of the grand total is the sum of that projection
over all resources, independent of the bucket partition. -/
theorem grand_f (f : Metrics → ℚ) (hf : ∀ a b : Metrics, f (a.add b) = f a + f b)
    (hf0 : f zeroTotals = 0) (envs : List String)
    (results : List (String × Metrics)) (h1 : envs.Nodup)
    (h2 : "other" ∉ envs) :
    f (grand envs results) = (results.map fun r => f r.2).sum := by
  unfold grand
  rw [foldl_add_f f (fun g => subtotal (sortedTablesIn envs results g)) hf _
    zeroTotals, hf0, zero_add]
  have hsub := fun g => subtotal_f f hf hf0 envs results g
  rw [List.map_congr_left fun g _ => hsub g]
  unfold groupOrder tablesIn
  have hnd : (envs ++ ["other"]).Nodup := by
    rw [List.nodup_append]
    refine ⟨h1, List.nodup_singleton "other", ?_⟩
    intro a ha hb
    rw [List.mem_singleton] at hb
    exact h2 (hb ▸ ha)
  have hzero : ∀ k ∈ envs ++ ["other"],
      (results.any fun r => classify envs r.1 == k) = false →
      ((results.filter fun r => classify envs r.1 == k).map fun r => f r.2).sum
        = 0 := by
    intro k _ hany
    have : (results.filter fun r => classify envs r.1 == k) = [] := by
      rw [List.filter_eq_nil_iff]
      intro r hr
      have := List.any_eq_false.mp hany r hr
      simpa using this
    simp [this]
  rw [sum_over_filter _ _ (envs ++ ["other"]) hzero]
  exact sum_fibers (fun r => classify envs r.1) (fun r => f r.2)
    (envs ++ ["other"]) results hnd fun r _ => classify_mem envs r.1

/-! ## Claim theorems -/

/-- C1 (counterexample): with the code's constants, write-units = 1024 do
produce 1,048,576 written bytes, but the GB value the report derives for
them is 1/1024, not 1 — 1,048,576 bytes is a MiB, not a GiB — and
likewise read-units = 256 yield read-GB 1/1024, not 1.  So the claim's
"write-units = 1024 … equal to exactly 1 GiB-equivalent unit of output"
is false of the code. -/
theorem C1_counterexample :
    writeBytes 1024 = 1048576 ∧ (mkMetrics 0 1024).write_gb ≠ 1
      ∧ readBytes 256 = 1048576 ∧ (mkMetrics 256 0).read_gb ≠ 1 := by
  refine ⟨by norm_num [writeBytes], ?_, by norm_num [readBytes], ?_⟩ <;>
    norm_num [mkMetrics]

/-- C1 (amended): unit conversion uses 1 write-unit = 1 KiB, 1 read-unit
= 4 KiB, and a binary GiB (1024³ bytes) for the byte-to-GB conversion:
for any input the derived GB value equals the derived bytes divided by
1024³.  Write-units = 1024 produce write-bytes = 1,048,576 = 1/1024
GiB-equivalent units of output; read-units = 256 produce read-bytes =
1,048,576 = 1/1024 unit; 1024² write-units produce exactly 1 unit. -/
theorem C1_amended_units :
    (∀ read_cu write_cu : ℚ,
      (mkMetrics read_cu write_cu).read_gb = readBytes read_cu / 1024 ^ 3
        ∧ (mkMetrics read_cu write_cu).write_gb = writeBytes write_cu / 1024 ^ 3)
      ∧ writeBytes 1024 = 1048576 ∧ (mkMetrics 0 1024).write_gb = 1 / 1024
      ∧ readBytes 256 = 1048576 ∧ (mkMetrics 256 0).read_gb = 1 / 1024
      ∧ (mkMetrics 0 (1024 * 1024)).write_gb = 1 := by
  refine ⟨fun read_cu write_cu => ⟨?_, ?_⟩, by norm_num [writeBytes],
    by norm_num [mkMetrics], by norm_num [readBytes],
    by norm_num [mkMetrics], by norm_num [mkMetrics]⟩ <;>
    · simp only [mkMetrics, readBytes, writeBytes]
      ring

/-- C3: classification assigns each resource to the first configured
environment tag `e` such that `e ++ "."` is a string prefix of the
resource name; a resource matching no tag is classified into the
fallback bucket `"other"`.  In particular, with tags
`["prod", "staging", "dev"]`, `prod.svc.tableA` lands in `prod` and
`production.svc.tableA` lands in the fallback bucket. -/
theorem C3_classification :
    (∀ envs table, (∀ e ∈ envs, startswith table (e ++ ".") = false) →
        classify envs table = "other")
      ∧ (∀ (front : List String) (e : String) (back : List String) (table : String),
          startswith table (e ++ ".") = true →
          (∀ e2 ∈ front, startswith table (e2 ++ ".") = false) →
          classify (front ++ e :: back) table = e)
      ∧ classify ["prod", "staging", "dev"] "prod.svc.tableA" = "prod"
      ∧ classify ["prod", "staging", "dev"] "production.svc.tableA" = "other" := by
  refine ⟨?_, ?_, by decide, by decide⟩
  · intro envs table h
    unfold classify
    have : (envs.find? fun e => startswith table (e ++ ".")) = none := by
      rw [List.find?_eq_none]
      intro e he
      simp [h e he]
    simp [this]
  · intro front e back table he hfront
    unfold classify
    have h1 : (front.find? fun x => startswith table (x ++ ".")) = none := by
      rw [List.find?_eq_none]
      intro x hx
      simp [hfront x hx]
    rw [List.find?_append, h1, Option.none_or]
    have h2 : (List.find? (fun x => startswith table (x ++ ".")) (e :: back))
        = some e := by
      simp [List.find?_cons, he]
    rw [h2]
    rfl

/-- C3 (witness): the general fallback clause of `C3_classification`
evaluated at a concrete non-matching resource name. -/
theorem C3_witness : classify ["prod", "staging", "dev"] "qa.tableB" = "other" :=
  C3_classification.1 ["prod", "staging", "dev"] "qa.tableB" (by decide)

/-- C2 (counterexample): the grand total is accumulated once per
occurrence of a group in `group_order`, which repeats a duplicated
environment tag.  With tags `["prod", "prod"]` and the single resource
`prod.x`, the grand total double-counts the `prod` subtotal, so it does
not equal the sum of `total_gb` over all resources. -/
theorem C2_counterexample :
    total_gb (grand ["prod", "prod"] [("prod.x", mkMetrics 0 1024)])
      ≠ ([(("prod.x", mkMetrics 0 1024) : String × Metrics)].map
          fun r => total_gb r.2).sum := by
  have h0 : groupOrder ["prod", "prod"]
      [(("prod.x", mkMetrics 0 1024) : String × Metrics)] = ["prod", "prod"] := by
    decide
  have hs : sortedTablesIn ["prod", "prod"]
      [(("prod.x", mkMetrics 0 1024) : String × Metrics)] "prod"
        = [("prod.x", mkMetrics 0 1024)] := rfl
  unfold grand
  rw [h0]
  simp only [List.foldl_cons, List.foldl_nil, hs, subtotal]
  norm_num [Metrics.add, zeroTotals, mkMetrics, total_gb]

/-- C2 (amended): for every resource `total_gb = read_gb + write_gb`
exactly; and provided the configured environment-tag list is
duplicate-free and does not contain the literal fallback tag `"other"`,
the grand-total fields equal the element-wise sum of the group subtotals
over `group_order`, which equals the element-wise sum over all
resources, regardless of how the resources are partitioned into
buckets. -/
theorem C2_amended_totals (envs : List String) (results : List (String × Metrics))
    (h1 : envs.Nodup) (h2 : "other" ∉ envs) :
    (∀ m : Metrics, total_gb m = m.read_gb + m.write_gb)
      ∧ grand envs results =
          ⟨(results.map fun r => r.2.read_cu).sum,
           (results.map fun r => r.2.write_cu).sum,
           (results.map fun r => r.2.read_gb).sum,
           (results.map fun r => r.2.write_gb).sum⟩
      ∧ grand envs results =
          ⟨((groupOrder envs results).map
              fun g => (subtotal (sortedTablesIn envs results g)).read_cu).sum,
           ((groupOrder envs results).map
              fun g => (subtotal (sortedTablesIn envs results g)).write_cu).sum,
           ((groupOrder envs results).map
              fun g => (subtotal (sortedTablesIn envs results g)).read_gb).sum,
           ((groupOrder envs results).map
              fun g => (subtotal (sortedTablesIn envs results g)).write_gb).sum⟩
      ∧ total_gb (grand envs results) = (results.map fun r => total_gb r.2).sum := by
  refine ⟨fun m => rfl, ?_, ?_, ?_⟩
  · apply Metrics.ext
    · exact grand_f Metrics.read_cu (fun a b => rfl) rfl envs results h1 h2
    · exact grand_f Metrics.write_cu (fun a b => rfl) rfl envs results h1 h2
    · exact grand_f Metrics.read_gb (fun a b => rfl) rfl envs results h1 h2
    · exact grand_f Metrics.write_gb (fun a b => rfl) rfl envs results h1 h2
  · apply Metrics.ext
    · simpa [grand, zeroTotals] using
        foldl_add_f Metrics.read_cu
          (fun g => subtotal (sortedTablesIn envs results g))
          (fun a b => rfl) (groupOrder envs results) zeroTotals
    · simpa [grand, zeroTotals] using
        foldl_add_f Metrics.write_cu
          (fun g => subtotal (sortedTablesIn envs results g))
          (fun a b => rfl) (groupOrder envs results) zeroTotals
    · simpa [grand, zeroTotals] using
        foldl_add_f Metrics.read_gb
          (fun g => subtotal (sortedTablesIn envs results g))
          (fun a b => rfl) (groupOrder envs results) zeroTotals
    · simpa [grand, zeroTotals] using
        foldl_add_f Metrics.write_gb
          (fun g => subtotal (sortedTablesIn envs results g))
          (fun a b => rfl) (groupOrder envs results) zeroTotals
  · exact grand_f total_gb
      (fun a b => by simp only [total_gb, Metrics.add]; ring)
      (by simp [total_gb, zeroTotals]) envs results h1 h2

/-- C2 (witness): the amended theorem applied to the spec §8 scenario —
two resources `prod.a` and `staging.b` with tags `["prod", "staging"]`. -/
theorem C2_witness :
    ((["prod", "staging"] : List String).Nodup
        ∧ "other" ∉ (["prod", "staging"] : List String))
      ∧ total_gb (grand ["prod", "staging"]
            [("prod.a", mkMetrics 100 0), ("staging.b", mkMetrics 0 200)])
          = ([("prod.a", mkMetrics 100 0), ("staging.b", mkMetrics 0 200)].map
              fun r => total_gb r.2).sum :=
  ⟨⟨by decide, by decide⟩,
    (C2_amended_totals ["prod", "staging"]
      [("prod.a", mkMetrics 100 0), ("staging.b", mkMetrics 0 200)]
      (by decide) (by decide)).2.2.2⟩

/-- The per-item write cost is always at least 1 unit. -/
theorem one_le_wcu_per_item (b : ℚ) : 1 ≤ wcu_per_item b := by
  unfold wcu_per_item
  split
  · exact le_max_left 1 _
  · exact le_refl 1

/-- C4: for a non-negative average item size `b`, the units consumed per
logical write equal `max(1, ceil(b / 1024))`, which defaults to 1 at
`b = 0`; the row rate is the unit rate divided by the units per item (the
zero-divisor guard never fires since the cost is at least 1).  In
particular an average item size of 2500 bytes costs 3 units per item, so
a 30 units/sec average rate is a 10 rows/sec average row rate. -/
theorem C4_wcu_per_item (b : ℚ) (hb : 0 ≤ b) :
    wcu_per_item b = max 1 ⌈b / 1024⌉
      ∧ wcu_per_item 0 = 1
      ∧ (∀ rate : ℚ, rows_per_sec rate (wcu_per_item b)
          = rate / (wcu_per_item b : ℚ))
      ∧ wcu_per_item 2500 = 3
      ∧ rows_per_sec 30 (wcu_per_item 2500) = 10 := by
  have hceil : ⌈(2500 : ℚ) / 1024⌉ = 3 := by
    rw [Int.ceil_eq_iff]
    norm_num
  have h2500 : wcu_per_item 2500 = 3 := by
    unfold wcu_per_item
    rw [if_pos (by norm_num), hceil]
    rfl
  refine ⟨?_, by norm_num [wcu_per_item], fun rate => ?_, h2500, ?_⟩
  · unfold wcu_per_item
    split
    · rfl
    · rename_i hpos
      have hb0 : b = 0 := le_antisymm (not_lt.mp hpos) hb
      subst hb0
      norm_num
  · unfold rows_per_sec
    rw [if_pos]
    have := one_le_wcu_per_item b
    omega
  · rw [h2500]
    unfold rows_per_sec
    norm_num

/-- C4 (witness): the theorem evaluated at average item size 2500. -/
theorem C4_witness :
    (0 : ℚ) ≤ 2500
      ∧ wcu_per_item 2500 = 3 ∧ rows_per_sec 30 (wcu_per_item 2500) = 10 :=
  ⟨by norm_num, (C4_wcu_per_item 2500 (by norm_num)).2.2.2⟩

/-- C5: degenerate input is never a fault — an empty datapoint list gives
average and peak unit rates of 0 and hence row rates of 0 whatever the
per-item cost; a zero item count gives average item size 0 via the
guarded division; and the guarded row-rate division returns 0 on a zero
divisor instead of failing. -/
theorem C5_degenerate_zero :
    (∀ size_bytes : ℤ, avg_item_bytes size_bytes 0 = 0)
      ∧ avg_wcu_per_sec [] = 0
      ∧ peak_wcu_per_sec [] = 0
      ∧ (∀ w : ℤ, rows_per_sec (avg_wcu_per_sec []) w = 0
          ∧ rows_per_sec (peak_wcu_per_sec []) w = 0)
      ∧ (∀ rate : ℚ, rows_per_sec rate 0 = 0) := by
  refine ⟨fun s => by simp [avg_item_bytes], by simp [avg_wcu_per_sec],
    by simp [peak_wcu_per_sec], fun w => ⟨?_, ?_⟩,
    fun rate => by simp [rows_per_sec]⟩ <;>
    simp [rows_per_sec, avg_wcu_per_sec, peak_wcu_per_sec]

/-- A left fold of `max` dominates its seed and every list element. -/
theorem foldl_max_bounds : ∀ (l : List ℚ) (x : ℚ),
    x ≤ l.foldl max x ∧ ∀ y ∈ l, y ≤ l.foldl max x
  | [], x => ⟨le_refl x, fun y hy => absurd hy (List.not_mem_nil y)⟩
  | a :: l, x => by
    obtain ⟨h1, h2⟩ := foldl_max_bounds l (max x a)
    simp only [List.foldl_cons]
    refine ⟨le_trans (le_max_left x a) h1, ?_⟩
    intro y hy
    rcases List.mem_cons.mp hy with rfl | hy
    · exact le_trans (le_max_right x y) h1
    · exact h2 y hy

/-- The sum of a nonempty list is at most its length times its maximum. -/
theorem sum_le_length_mul_listMax :
    ∀ l : List ℚ, l ≠ [] → l.sum ≤ (l.length : ℚ) * listMax l
  | [], h => absurd rfl h
  | x :: xs, _ => by
    have hb := foldl_max_bounds xs x
    have hall : ∀ y ∈ x :: xs, y ≤ listMax (x :: xs) := by
      intro y hy
      rcases List.mem_cons.mp hy with rfl | hy
      · exact hb.1
      · exact hb.2 y hy
    have := List.sum_le_card_nsmul (x :: xs) (listMax (x :: xs)) hall
    simpa [nsmul_eq_mul] using this

/-- The average unit rate never exceeds the peak unit rate. -/
theorem avg_le_peak (datapoints : List ℚ) :
    avg_wcu_per_sec datapoints ≤ peak_wcu_per_sec datapoints := by
  unfold avg_wcu_per_sec peak_wcu_per_sec
  cases datapoints with
  | nil => simp
  | cons x xs =>
    simp only [List.isEmpty_cons, Bool.false_eq_true, if_false]
    have hlen : (0 : ℚ) < ((x :: xs).length : ℚ) := by
      exact_mod_cast Nat.succ_pos xs.length
    apply (div_le_div_right (by norm_num : (0 : ℚ) < 3600)).mpr
    rw [div_le_iff hlen]
    calc (x :: xs).sum ≤ ((x :: xs).length : ℚ) * listMax (x :: xs) :=
          sum_le_length_mul_listMax (x :: xs) (by simp)
      _ = listMax (x :: xs) * ((x :: xs).length : ℚ) := by ring

/-- C10: for every resource the peak unit rate is at least the average
unit rate (both are 0 with no datapoints), the per-item cost is at least
1 unit, and consequently the peak row rate is at least the average row
rate, both being divided by the same per-item cost. -/
theorem C10_peak_ge_avg :
    ∀ (datapoints : List ℚ) (b : ℚ),
      avg_wcu_per_sec datapoints ≤ peak_wcu_per_sec datapoints
        ∧ (avg_wcu_per_sec [] = 0 ∧ peak_wcu_per_sec [] = 0)
        ∧ 1 ≤ wcu_per_item b
        ∧ rows_per_sec (avg_wcu_per_sec datapoints) (wcu_per_item b)
            ≤ rows_per_sec (peak_wcu_per_sec datapoints) (wcu_per_item b) := by
  intro datapoints b
  have havg := avg_le_peak datapoints
  have hw := one_le_wcu_per_item b
  refine ⟨havg, ⟨by simp [avg_wcu_per_sec], by simp [peak_wcu_per_sec]⟩, hw, ?_⟩
  unfold rows_per_sec
  have hne : wcu_per_item b ≠ 0 := by omega
  rw [if_pos hne, if_pos hne]
  have hwq : (0 : ℚ) < (wcu_per_item b : ℚ) := by
    exact_mod_cast lt_of_lt_of_le zero_lt_one hw
  exact (div_le_div_right hwq).mpr havg

/-- Folding scalar addition of a projection equals the mapped sum. -/
theorem foldl_add_q {β : Type} (h : β → ℚ) :
    ∀ (l : List β) (init : ℚ),
      l.foldl (fun acc t => acc + h t) init = init + (l.map h).sum
  | [], init => by simp
  | x :: xs, init => by
    rw [List.foldl_cons, foldl_add_q h xs (init + h x), List.map_cons,
      List.sum_cons]
    ring

/-- Any additive projection of `subtotal` is the mapped sum over the rows. -/
theorem subtotal_proj (f : Metrics → ℚ)
    (hf : ∀ a b : Metrics, f (a.add b) = f a + f b) (hf0 : f zeroTotals = 0)
    (rows : List (String × Metrics)) :
    f (subtotal rows) = (rows.map fun r => f r.2).sum := by
  unfold subtotal
  rw [foldl_add_f f Prod.snd hf rows zeroTotals, hf0, zero_add]

/-- C6 (amended): in the read/write report, the rows of every bucket are
emitted sorted lexicographically by full resource name and the bucket
subtotal folded in that order equals the subtotal folded in discovery
order (the value is order-independent); in the throughput script, rows
are emitted sorted by peak row rate descending — not by name — as a
stable permutation of the input, and the grand total folded in that
emitted order equals the sum over all rows.  All outputs are pure
functions of their inputs, so identical input reproduces identical
sums and text. -/
theorem C6_amended_ordering :
    (∀ (envs : List String) (results : List (String × Metrics)) (g : String),
        List.Sorted (fun a b : String × Metrics => a.1 ≤ b.1)
          (sortedTablesIn envs results g))
      ∧ (∀ (envs : List String) (results : List (String × Metrics)) (g : String),
          subtotal (sortedTablesIn envs results g)
            = subtotal (tablesIn envs results g))
      ∧ (∀ table_data : List TableRow,
          List.Sorted
              (fun a b : TableRow =>
                b.peak_write_rows_per_sec ≤ a.peak_write_rows_per_sec)
              (sortByPeakDesc table_data)
            ∧ (sortByPeakDesc table_data).Perm table_data
            ∧ total_peak_rows (sortByPeakDesc table_data)
                = (table_data.map TableRow.peak_write_rows_per_sec).sum) := by
  refine ⟨?_, ?_, ?_⟩
  · intro envs results g
    haveI : IsTotal (String × Metrics) (fun a b => a.1 ≤ b.1) :=
      ⟨fun a b => le_total a.1 b.1⟩
    haveI : IsTrans (String × Metrics) (fun a b => a.1 ≤ b.1) :=
      ⟨fun _ _ _ hab hbc => le_trans hab hbc⟩
    exact List.sorted_insertionSort _ _
  · intro envs results g
    have hperm : (sortedTablesIn envs results g).Perm (tablesIn envs results g) :=
      List.perm_insertionSort _ _
    apply Metrics.ext
    · rw [subtotal_proj Metrics.read_cu (fun a b => rfl) rfl,
        subtotal_proj Metrics.read_cu (fun a b => rfl) rfl]
      exact (hperm.map fun r => r.2.read_cu).sum_eq
    · rw [subtotal_proj Metrics.write_cu (fun a b => rfl) rfl,
        subtotal_proj Metrics.write_cu (fun a b => rfl) rfl]
      exact (hperm.map fun r => r.2.write_cu).sum_eq
    · rw [subtotal_proj Metrics.read_gb (fun a b => rfl) rfl,
        subtotal_proj Metrics.read_gb (fun a b => rfl) rfl]
      exact (hperm.map fun r => r.2.read_gb).sum_eq
    · rw [subtotal_proj Metrics.write_gb (fun a b => rfl) rfl,
        subtotal_proj Metrics.write_gb (fun a b => rfl) rfl]
      exact (hperm.map fun r => r.2.write_gb).sum_eq
  · intro table_data
    haveI : IsTotal TableRow
        (fun a b : TableRow =>
          b.peak_write_rows_per_sec ≤ a.peak_write_rows_per_sec) :=
      ⟨fun a b => le_total b.peak_write_rows_per_sec a.peak_write_rows_per_sec⟩
    haveI : IsTrans TableRow
        (fun a b : TableRow =>
          b.peak_write_rows_per_sec ≤ a.peak_write_rows_per_sec) :=
      ⟨fun _ _ _ hab hbc => le_trans hbc hab⟩
    refine ⟨List.sorted_insertionSort _ _, List.perm_insertionSort _ _, ?_⟩
    rw [total_peak_rows, foldl_add_q TableRow.peak_write_rows_per_sec, zero_add]
    exact ((List.perm_insertionSort _ table_data).map
      TableRow.peak_write_rows_per_sec).sum_eq

/-- C6 (counterexample): the throughput script emits rows ordered by peak
row rate descending; with two tables whose peaks are 1 and 2 rows/sec the
emitted order is `["bbb", "aaa"]`, which is not lexicographic by name. -/
theorem C6_counterexample :
    ((sortByPeakDesc
        [computeRow "aaa" 0 0 [3600], computeRow "bbb" 0 0 [7200, 3600]]).map
          TableRow.table) = ["bbb", "aaa"]
      ∧ ¬ List.Sorted (fun a b : String => a ≤ b) ["bbb", "aaa"] := by
  have hA : (computeRow "aaa" 0 0 [3600]).peak_write_rows_per_sec = 1 := by
    norm_num [computeRow, rows_per_sec, peak_wcu_per_sec, listMax,
      wcu_per_item, avg_item_bytes, avg_wcu_per_sec]
  have hB : (computeRow "bbb" 0 0 [7200, 3600]).peak_write_rows_per_sec = 2 := by
    norm_num [computeRow, rows_per_sec, peak_wcu_per_sec, listMax,
      wcu_per_item, avg_item_bytes, avg_wcu_per_sec]
  constructor
  · simp only [sortByPeakDesc, List.insertionSort, List.orderedInsert]
    rw [hA, hB, if_neg (by norm_num : ¬ (2 : ℚ) ≤ 1)]
    rfl
  · intro h
    have h1 := (List.sorted_cons.mp h).1 "aaa" (List.mem_singleton.mpr rfl)
    rw [String.le_iff_toList_le] at h1
    exact absurd h1 (by decide)

/-- A successful `run_aws` means exit status 0 and parseable stdout. -/
theorem run_aws_ok_iff {α : Type} (cmd : String) (r : Proc α) (v : α) :
    run_aws cmd r = Except.ok v ↔ r.returncode = 0 ∧ r.stdout = some v := by
  unfold run_aws
  by_cases h : r.returncode ≠ 0
  · simp [h]
  · push_neg at h
    rw [if_neg (by simp [h])]
    cases hs : r.stdout <;> simp [h, hs]

/-- Every error produced by `run_aws` carries exit status 1. -/
theorem run_aws_error_code {α : Type} (cmd : String) (r : Proc α)
    (e : Nat × String) : run_aws cmd r = Except.error e → e.1 = 1 := by
  unfold run_aws
  split
  · intro h
    cases h
    rfl
  · split
    · intro h
      cases h
    · intro h
      cases h
      rfl

/-- C7 (counterexample): in the throughput script the provider's exit
status is never inspected, so a failed fetch (nonzero exit status) whose
stdout still parses does not abort the run — refuting "every fetch
failure from the metric source aborts the entire run". -/
theorem C7_counterexample :
    ¬ (∀ r : Proc Nat, r.returncode ≠ 0 →
        ∃ msg, fetch_unchecked r = Except.error msg) := by
  intro h
  obtain ⟨msg, hmsg⟩ := h ⟨1, some 0, "simulated provider failure"⟩ (by decide)
  simp [fetch_unchecked] at hmsg

/-- Every error outcome of the report's fetch loop carries exit status 1. -/
theorem runFetches_error_code {α : Type} :
    ∀ (fetches : List (String × Proc α)) (e : Nat × String),
      runFetches fetches = Except.error e → e.1 = 1
  | [], e => by
    intro h
    simp [runFetches] at h
  | f :: fs, e => by
    rw [runFetches]
    cases hra : run_aws f.1 f.2 with
    | error e2 =>
      intro h
      have he : e2 = e := by injection h
      exact he ▸ run_aws_error_code f.1 f.2 e2 hra
    | ok v =>
      cases hfs : runFetches fs with
      | error e2 =>
        intro h
        have he : e2 = e := by injection h
        exact he ▸ runFetches_error_code fs e2 hfs
      | ok vs =>
        intro h
        cases h

/-- The report's fetch loop succeeds exactly when every fetch exits with
status 0 and parseable output. -/
theorem runFetches_ok_iff {α : Type} :
    ∀ fetches : List (String × Proc α),
      (∃ vs, runFetches fetches = Except.ok vs)
        ↔ ∀ f ∈ fetches, f.2.returncode = 0 ∧ f.2.stdout.isSome = true
  | [] => by simp [runFetches]
  | f :: fs => by
    have ih := runFetches_ok_iff fs
    rw [runFetches]
    cases hra : run_aws f.1 f.2 with
    | error e2 =>
      constructor
      · rintro ⟨vs, hvs⟩
        cases hvs
      · intro hall
        obtain ⟨hrc, hsome⟩ := hall f (List.mem_cons_self f fs)
        obtain ⟨v, hv⟩ := Option.isSome_iff_exists.mp hsome
        have hok : run_aws f.1 f.2 = Except.ok v :=
          (run_aws_ok_iff f.1 f.2 v).mpr ⟨hrc, hv⟩
        rw [hra] at hok
        cases hok
    | ok v =>
      have hhead := (run_aws_ok_iff f.1 f.2 v).mp hra
      cases hfs : runFetches fs with
      | error e2 =>
        constructor
        · rintro ⟨vs, hvs⟩
          cases hvs
        · intro hall
          obtain ⟨vs, hvs⟩ := ih.mpr fun g hg => hall g (List.mem_cons_of_mem f hg)
          rw [hfs] at hvs
          cases hvs
      | ok vs =>
        constructor
        · intro _ g hg
          rcases List.mem_cons.mp hg with rfl | hg
          · exact ⟨hhead.1, by rw [hhead.2]; rfl⟩
          · exact (ih.mp ⟨vs, hfs⟩) g hg
        · intro _
          exact ⟨v :: vs, rfl⟩

/-- C7 (amended): in the read/write report every fetch failure aborts the
run immediately with exit status 1 and a diagnostic, with no retry and no
partial result — the run succeeds exactly when every fetch exits with
status 0 and parseable output; in the throughput script the provider's
exit status is never inspected, and the run aborts exactly when a fetch's
stdout fails to parse. -/
theorem C7_amended_failure {α : Type} (fetches : List (String × Proc α)) :
    (∀ e : Nat × String, runFetches fetches = Except.error e → e.1 = 1)
      ∧ ((∃ vs, runFetches fetches = Except.ok vs)
          ↔ ∀ f ∈ fetches, f.2.returncode = 0 ∧ f.2.stdout.isSome = true)
      ∧ (∀ r : Proc α,
          (∃ v, fetch_unchecked r = Except.ok v) ↔ r.stdout.isSome = true) := by
  refine ⟨runFetches_error_code fetches, runFetches_ok_iff fetches, ?_⟩
  intro r
  cases hs : r.stdout <;> simp [fetch_unchecked, hs]

/-- C7 (witness): the amended theorem applied to a single successful
fetch. -/
theorem C7_witness :
    ∃ vs, runFetches [("aws dynamodb list-tables", (⟨0, some 3, ""⟩ : Proc Nat))]
      = Except.ok vs :=
  (C7_amended_failure
    [("aws dynamodb list-tables", (⟨0, some 3, ""⟩ : Proc Nat))]).2.1.mpr
    (by decide)

/-- C8: a resource with zero consumed read and write units has zero
derived bytes and GB, and its rendered row shows the explicit
right-justified zero tokens "0" (unit cells) and "0.0000" (GB cells) in
every numeric cell — tokens containing a digit, hence never a blank
cell — for any rendering of nonzero numbers. -/
theorem C8_zero_row (numfmt numfmt4 : ℚ → String) (short : String)
    (read_cu write_cu : ℚ) (h1 : read_cu = 0) (h2 : write_cu = 0) :
    rowLine numfmt numfmt4 short (mkMetrics read_cu write_cu)
        = "  " ++ ljust short 62 ++ " " ++ rjust "0" 14 ++ " "
          ++ rjust "0.0000" 10 ++ " " ++ rjust "0" 14 ++ " "
          ++ rjust "0.0000" 10 ++ " " ++ rjust "0.0000" 10
      ∧ (mkMetrics read_cu write_cu).read_gb = 0
      ∧ (mkMetrics read_cu write_cu).write_gb = 0
      ∧ readBytes read_cu = 0 ∧ writeBytes write_cu = 0
      ∧ (∃ c ∈ (rjust "0" 14).data, c ≠ ' ')
      ∧ (∃ c ∈ (rjust "0.0000" 10).data, c ≠ ' ') := by
  subst h1 h2
  refine ⟨?_, by norm_num [mkMetrics], by norm_num [mkMetrics],
    by norm_num [readBytes], by norm_num [writeBytes], ?_, ?_⟩
  · simp [rowLine, fmt_cu, fmt_gb, mkMetrics, total_gb]
  · exact ⟨'0', by decide⟩
  · exact ⟨'0', by decide⟩

/-- C8 (witness): the zero-row rendering evaluated at a concrete table. -/
theorem C8_witness :
    rowLine (fun _ => "X") (fun _ => "Y") "tbl" (mkMetrics 0 0)
      = "  " ++ ljust "tbl" 62 ++ " " ++ rjust "0" 14 ++ " "
        ++ rjust "0.0000" 10 ++ " " ++ rjust "0" 14 ++ " "
        ++ rjust "0.0000" 10 ++ " " ++ rjust "0.0000" 10 :=
  (C8_zero_row (fun _ => "X") (fun _ => "Y") "tbl" 0 0 rfl rfl).1

/-- C9: the TOTAL line's peak row rate is the sum of the independent
per-table peak row rates, and the rendered output always contains the
two explicit caveat lines stating that per-table peaks are not
necessarily simultaneous and that the total is a worst-case sum. -/
theorem C9_peak_total_caveat :
    ∀ (renderRow : TableRow → String) (renderTotal : List TableRow → String)
      (table_data : List TableRow),
      total_peak_rows (sortByPeakDesc table_data)
          = (table_data.map TableRow.peak_write_rows_per_sec).sum
        ∧ caveatPeakLine ∈ outputLines renderRow renderTotal table_data
        ∧ caveatTotalLine ∈ outputLines renderRow renderTotal table_data := by
  intro renderRow renderTotal table_data
  refine ⟨?_, ?_, ?_⟩
  · rw [total_peak_rows, foldl_add_q TableRow.peak_write_rows_per_sec, zero_add]
    exact ((List.perm_insertionSort _ table_data).map
      TableRow.peak_write_rows_per_sec).sum_eq
  · simp [outputLines, notesLines]
  · simp [outputLines, notesLines]
